import Mathlib

/-!
Metabase front-end: `SettingInput` and `FieldDetailContainer`.

A shallow embedding of two React components of the Metabase front-end:

* `frontend/src/metabase/admin/settings/components/widgets/SettingInput.jsx`
* `frontend/src/metabase/reference/databases/FieldDetailContainer.jsx`

JavaScript values are a small first-order datatype, objects are association
lists, and every call the components make to a function they receive (a
dispatcher, a callback, an imported action) is recorded in a call trace, in
the order in which JavaScript evaluates it.
-/

/-! ## JavaScript values -/

/-- The identity of a JavaScript function value that the components only call
and never inspect (a bound action creator, a change callback). -/
structure FnRef where
  id : Nat
  deriving DecidableEq, Repr

/-- The JavaScript values the two components handle.  Numbers are integers
(no `NaN`), and `obj` is a reference to an object the components never look
into. -/
inductive JSVal where
  | undefined
  | null
  | bool (b : Bool)
  | num (n : Int)
  | str (s : String)
  | obj (ref : Nat)
  deriving DecidableEq, Repr

namespace JSVal

/-- JavaScript `ToBoolean`. -/
def truthy : JSVal → Bool
  | undefined => false
  | null => false
  | bool b => b
  | num n => n != 0
  | str s => s != ""
  | obj _ => true

/-- JavaScript `a || b`: `a` when it is truthy, else `b`. -/
def or (a b : JSVal) : JSVal :=
  if a.truthy then a else b

/-- JavaScript `a === b` on these values. -/
def strictEq (a b : JSVal) : Bool :=
  decide (a = b)

end JSVal

/-! ## `FieldDetailContainer.jsx` -/

namespace FieldDetailContainer

/-- The router location: `{ pathname: string, ... }`. -/
structure Location where
  pathname : String
  deriving DecidableEq, Repr

/-- The props of `FieldDetailContainer`: the router props, the values that
`mapStateToProps` derives, and the four reset dispatchers among the actions
bound by `mapDispatchToProps`.  The prop `section` is the field `sectionData`
(`section` is a reserved word). -/
structure Props where
  params : JSVal
  location : Location
  sectionId : JSVal
  database : JSVal
  table : JSVal
  field : JSVal
  databaseId : JSVal
  sectionData : JSVal
  isEditing : JSVal
  endEditing : FnRef
  endLoading : FnRef
  clearError : FnRef
  collapseFormula : FnRef
  deriving DecidableEq, Repr

/-- A call made by a lifecycle method: `f()` on a function taken from a props
object, or `actions.rFetchDatabaseMetadata(ctx, databaseId)` on the imported
action module. -/
inductive Call where
  | invoke (f : FnRef)
  | rFetchDatabaseMetadata (ctx : Props) (databaseId : JSVal)
  deriving DecidableEq, Repr

namespace Call

/-- Whether the call is a metadata fetch. -/
def isFetch : Call → Bool
  | rFetchDatabaseMetadata _ _ => true
  | invoke _ => false

/-- Whether the call invokes a function taken from a props object. -/
def isInvoke : Call → Bool
  | invoke _ => true
  | rFetchDatabaseMetadata _ _ => false

end Call

/-- `componentWillMount()`, with `thisProps` for `this.props`: the calls made,
in order. -/
def componentWillMount (thisProps : Props) : List Call :=
  [Call.rFetchDatabaseMetadata thisProps thisProps.databaseId]

/-- `componentWillReceiveProps(newProps)`, with `thisProps` for `this.props`:
the calls made, in order.  The body up to the `await` runs synchronously, and
the argument of `await` is evaluated before the function suspends. -/
def componentWillReceiveProps (thisProps newProps : Props) : List Call :=
  if thisProps.location.pathname = newProps.location.pathname then
    []
  else
    [ Call.invoke newProps.endEditing,
      Call.invoke newProps.endLoading,
      Call.invoke newProps.clearError,
      Call.invoke newProps.collapseFormula,
      Call.rFetchDatabaseMetadata newProps newProps.databaseId ]

/-- The props `render` passes to `FieldSidebar`. -/
structure FieldSidebarProps where
  database : JSVal
  table : JSVal
  field : JSVal
  deriving DecidableEq, Repr

/-- The `SidebarLayout` element `render` returns: its `className`, its `style`
object, the `sidebar` element, and the props spread into the `FieldDetail`
child. -/
structure SidebarLayoutElement where
  className : String
  style : List (String × JSVal)
  sidebar : FieldSidebarProps
  children : Props
  deriving DecidableEq, Repr

/-- `render()`, with `thisProps` for `this.props`. -/
def render (thisProps : Props) : SidebarLayoutElement :=
  { className := "flex-full relative"
    style := if thisProps.isEditing.truthy then [("paddingTop", JSVal.str "43px")] else []
    sidebar :=
      { database := thisProps.database, table := thisProps.table, field := thisProps.field }
    children := thisProps }

/-- The calls one component instance makes after `thisProps` is current and
the props of `later` are delivered one by one: React calls
`componentWillReceiveProps` with each new props while `this.props` is still the
previous one, and then makes the new props current. -/
def deliver (thisProps : Props) : List Props → List Call
  | [] => []
  | newProps :: later => componentWillReceiveProps thisProps newProps ++ deliver newProps later

/-- The whole call trace of one instance: mounted with `p0`, then given the
props of `later` in order. -/
def lifecycle (p0 : Props) (later : List Props) : List Call :=
  componentWillMount p0 ++ deliver p0 later

/-- The four reset calls on the dispatchers of `p`, in source order. -/
def resets (p : Props) : List Call :=
  [ Call.invoke p.endEditing, Call.invoke p.endLoading,
    Call.invoke p.clearError, Call.invoke p.collapseFormula ]

/-- The number of adjacent pathname changes in the sequence `prev, p1, p2, ...`. -/
def pathnameChanges (prev : Props) : List Props → Nat
  | [] => 0
  | p :: later =>
    (if prev.location.pathname = p.location.pathname then 0 else 1) + pathnameChanges p later

/-- The props of the sequence `prev, p1, p2, ...` whose pathname differs from
the pathname of their predecessor, in order. -/
def changedProps (prev : Props) : List Props → List Props
  | [] => []
  | p :: later =>
    if prev.location.pathname = p.location.pathname then changedProps p later
    else p :: changedProps p later

/-- The trace the specification describes: the fetch of `p0`, then for every
props whose pathname differs from its predecessor, its four resets followed
by its fetch. -/
def specTrace (p0 : Props) (later : List Props) : List Call :=
  Call.rFetchDatabaseMetadata p0 p0.databaseId ::
    ((changedProps p0 later).map
      (fun p => resets p ++ [Call.rFetchDatabaseMetadata p p.databaseId])).flatten

/-- The CSS length of a string of the form `<digits>px`. -/
def pxLength (s : String) : Option Nat :=
  match s.data.reverse with
  | 'x' :: 'p' :: d :: ds =>
    if (d :: ds).all Char.isDigit then
      some ((d :: ds).reverse.foldl (fun n c => 10 * n + (c.toNat - '0'.toNat)) 0)
    else none
  | _ => none

/-- Sample props used to instantiate the theorems. -/
def sampleProps (pathname : String) (databaseId : Int) (isEditing : JSVal) : Props :=
  { params := JSVal.obj 0
    location := { pathname := pathname }
    sectionId := JSVal.str "field"
    database := JSVal.obj 1
    table := JSVal.obj 2
    field := JSVal.obj 3
    databaseId := JSVal.num databaseId
    sectionData := JSVal.obj 4
    isEditing := isEditing
    endEditing := ⟨10⟩
    endLoading := ⟨11⟩
    clearError := ⟨12⟩
    collapseFormula := ⟨13⟩ }

end FieldDetailContainer

/-! ## `SettingInput.jsx` -/

namespace SettingInput

/-- A setting: `{ value, placeholder }`. -/
structure Setting where
  value : JSVal
  placeholder : JSVal
  deriving DecidableEq, Repr

/-- The props object `SettingInput` destructures.  A prop that the caller
omits is `JSVal.undefined`. -/
structure Props where
  setting : Setting
  onChange : FnRef
  disabled : JSVal
  autoFocus : JSVal
  errorMessage : JSVal
  fireOnChange : JSVal
  type : JSVal
  deriving DecidableEq, Repr

/-- The `target` of an input event. -/
structure Target where
  value : JSVal
  deriving DecidableEq, Repr

/-- An input event, of which the handlers read `e.target.value`. -/
structure Event where
  target : Target
  deriving DecidableEq, Repr

/-- A call `f(arg)` of a callback. -/
inductive Call where
  | invoke (f : FnRef) (arg : JSVal)
  deriving DecidableEq, Repr

/-- The value of a JSX attribute: a plain value, or an arrow function of one
event, given by the calls it makes when it is invoked. -/
inductive Attr where
  | val (v : JSVal)
  | handler (h : Event → List Call)

/-- An argument of `cx`: a string, or an object literal from class names to
conditions. -/
inductive CxArg where
  | str (s : String)
  | obj (entries : List (String × JSVal))
  deriving DecidableEq, Repr

/-- The `classnames` package (imported as `cx`; an npm dependency, not a source
of this repository), on string and object arguments: a non-empty string
argument is kept, an object contributes its keys whose value is truthy, in
order, and the kept names are joined with single spaces. -/
def classNames (args : List CxArg) : String :=
  " ".intercalate
    (args.map fun
      | CxArg.str s => if s != "" then [s] else []
      | CxArg.obj entries => (entries.filter fun e => e.2.truthy).map Prod.fst).flatten

/-- The class names of a `className` string, which separates them by white
space, read from the characters `cs` with the characters of the current name
in `cur` (last first). -/
def classTokens : List Char → List Char → List String
  | [], cur => if cur.isEmpty then [] else [String.mk cur.reverse]
  | c :: cs, cur =>
    if c.isWhitespace then
      (if cur.isEmpty then classTokens cs [] else String.mk cur.reverse :: classTokens cs [])
    else classTokens cs (c :: cur)

/-- The list of class names in a `className` string. -/
def classList (className : String) : List String :=
  classTokens className.data []

/-- Whether a `className` attribute contains the class `c`. -/
def hasClass (className : JSVal) (c : String) : Bool :=
  match className with
  | JSVal.str s => decide (c ∈ classList s)
  | _ => false

/-- The attributes of a JSX element, in source order. -/
abbrev Element := List (String × Attr)

/-- The attribute `name` of an element, `none` when the element has none. -/
def attr (name : String) (el : Element) : Option Attr :=
  el.lookup name

end SettingInput

/-- The function component `SettingInput`: the attributes of the `Input`
element it returns.  `cx` is the imported `classnames` function. -/
def SettingInput (cx : List SettingInput.CxArg → String) (props : SettingInput.Props) :
    SettingInput.Element :=
  let setting := props.setting
  let onChange := props.onChange
  let autoFocus := props.autoFocus
  let errorMessage := props.errorMessage
  let fireOnChange := props.fireOnChange
  let type := if props.type = JSVal.undefined then JSVal.str "text" else props.type
  [ ("className",
      .val (.str (cx
        [ .str " AdminInput bordered rounded h3",
          .obj
            [ ("SettingsInput", .bool (!(type.strictEq (.str "password")))),
              ("SettingsPassword", .bool (type.strictEq (.str "password"))),
              ("border-error bg-error-input", errorMessage) ] ]))),
    ("type", .val type),
    ("value", .val (setting.value.or (.str ""))),
    ("placeholder", .val setting.placeholder),
    ("onChange",
      if fireOnChange.truthy then
        .handler (fun e => [SettingInput.Call.invoke onChange e.target.value])
      else .val .null),
    ("onBlurChange",
      if (!fireOnChange.truthy) then
        .handler (fun e => [SettingInput.Call.invoke onChange e.target.value])
      else .val .null),
    ("autoFocus", .val autoFocus) ]

namespace SettingInput

/-- Sample props used to instantiate the theorems. -/
def sampleProps (value type fireOnChange : JSVal) : Props :=
  { setting := { value := value, placeholder := JSVal.str "Enter a value" }
    onChange := ⟨7⟩
    disabled := JSVal.bool false
    autoFocus := JSVal.undefined
    errorMessage := JSVal.undefined
    fireOnChange := fireOnChange
    type := type }

end SettingInput

/-! ## Theorems: `FieldDetailContainer` -/

namespace FieldDetailContainer

/-- C2: for every initial props, `componentWillMount` makes exactly one call,
the metadata fetch with arguments `(this.props, this.props.databaseId)`, and
calls no function taken from the props, so none of the four resets. -/
theorem componentWillMount_one_fetch_no_reset (thisProps : Props) :
    componentWillMount thisProps =
        [Call.rFetchDatabaseMetadata thisProps thisProps.databaseId] ∧
      (componentWillMount thisProps).countP Call.isFetch = 1 ∧
      (componentWillMount thisProps).countP Call.isInvoke = 0 ∧
      ∀ f : FnRef, Call.invoke f ∉ componentWillMount thisProps := by
  refine ⟨rfl, rfl, rfl, ?_⟩
  intro f hf
  simp [componentWillMount] at hf

/-- C1: when the pathname of the new props differs from the pathname of the
current props, `componentWillReceiveProps` makes exactly five calls, in this
order: `newProps.endEditing()`, `newProps.endLoading()`, `newProps.clearError()`,
`newProps.collapseFormula()`, and the metadata fetch with arguments
`(newProps, newProps.databaseId)`.  The trace is the same for whatever current
props with another pathname: no dispatcher and no `databaseId` of the current
props enters it. -/
theorem componentWillReceiveProps_pathname_changed (thisProps newProps : Props)
    (h : thisProps.location.pathname ≠ newProps.location.pathname) :
    componentWillReceiveProps thisProps newProps =
        [ Call.invoke newProps.endEditing,
          Call.invoke newProps.endLoading,
          Call.invoke newProps.clearError,
          Call.invoke newProps.collapseFormula,
          Call.rFetchDatabaseMetadata newProps newProps.databaseId ] ∧
      (componentWillReceiveProps thisProps newProps).countP Call.isFetch = 1 ∧
      ((componentWillReceiveProps thisProps newProps).take 4).all Call.isInvoke = true ∧
      ∀ other : Props, other.location.pathname ≠ newProps.location.pathname →
        componentWillReceiveProps other newProps =
          componentWillReceiveProps thisProps newProps := by
  have key : ∀ q : Props, q.location.pathname ≠ newProps.location.pathname →
      componentWillReceiveProps q newProps =
        [ Call.invoke newProps.endEditing,
          Call.invoke newProps.endLoading,
          Call.invoke newProps.clearError,
          Call.invoke newProps.collapseFormula,
          Call.rFetchDatabaseMetadata newProps newProps.databaseId ] := by
    intro q hq
    simp [componentWillReceiveProps, hq]
  refine ⟨key thisProps h, ?_, ?_, ?_⟩
  · rw [key thisProps h]; rfl
  · rw [key thisProps h]; rfl
  · intro other ho
    rw [key other ho, key thisProps h]

/-- Witness of C1: from "/a" with database 1 and dispatchers 20 to 23, to "/b"
with database 2 and dispatchers 10 to 13. -/
theorem componentWillReceiveProps_pathname_changed_witness :
    componentWillReceiveProps
        { sampleProps "/a" 1 JSVal.undefined with
          endEditing := ⟨20⟩, endLoading := ⟨21⟩, clearError := ⟨22⟩, collapseFormula := ⟨23⟩ }
        (sampleProps "/b" 2 JSVal.undefined) =
      [ Call.invoke ⟨10⟩, Call.invoke ⟨11⟩, Call.invoke ⟨12⟩, Call.invoke ⟨13⟩,
        Call.rFetchDatabaseMetadata (sampleProps "/b" 2 JSVal.undefined) (JSVal.num 2) ] :=
  (componentWillReceiveProps_pathname_changed
    { sampleProps "/a" 1 JSVal.undefined with
      endEditing := ⟨20⟩, endLoading := ⟨21⟩, clearError := ⟨22⟩, collapseFormula := ⟨23⟩ }
    (sampleProps "/b" 2 JSVal.undefined) (by decide)).1

/-- C3: when the pathname of the new props equals the pathname of the current
props, `componentWillReceiveProps` makes no call at all, whatever else differs
between the two props. -/
theorem componentWillReceiveProps_pathname_unchanged (thisProps newProps : Props)
    (h : thisProps.location.pathname = newProps.location.pathname) :
    componentWillReceiveProps thisProps newProps = [] ∧
      (componentWillReceiveProps thisProps newProps).countP Call.isFetch = 0 ∧
      (componentWillReceiveProps thisProps newProps).countP Call.isInvoke = 0 := by
  have key : componentWillReceiveProps thisProps newProps = [] := by
    simp [componentWillReceiveProps, h]
  rw [key]
  exact ⟨rfl, rfl, rfl⟩

/-- Witness of C3: the pathname stays "/a" while `databaseId` and `isEditing`
change. -/
theorem componentWillReceiveProps_pathname_unchanged_witness :
    sampleProps "/a" 1 JSVal.undefined ≠ sampleProps "/a" 2 (JSVal.bool true) ∧
      componentWillReceiveProps (sampleProps "/a" 1 JSVal.undefined)
        (sampleProps "/a" 2 (JSVal.bool true)) = [] :=
  ⟨by decide,
    (componentWillReceiveProps_pathname_unchanged (sampleProps "/a" 1 JSVal.undefined)
      (sampleProps "/a" 2 (JSVal.bool true)) rfl).1⟩

/-- C8: for every props with `isEditing` true, the style `render` passes to the
layout has `paddingTop` equal to `43px`, a non-zero length; for every props with
`isEditing` false or absent, the style is the empty object and has no
`paddingTop`. -/
theorem render_style (thisProps : Props) :
    ((render { thisProps with isEditing := JSVal.bool true }).style =
          [("paddingTop", JSVal.str "43px")] ∧
        (render { thisProps with isEditing := JSVal.bool true }).style.lookup "paddingTop" =
          some (JSVal.str "43px") ∧
        pxLength "43px" = some 43) ∧
      ((render { thisProps with isEditing := JSVal.bool false }).style = [] ∧
        (render { thisProps with isEditing := JSVal.bool false }).style.lookup "paddingTop" =
          none) ∧
      ((render { thisProps with isEditing := JSVal.undefined }).style = [] ∧
        (render { thisProps with isEditing := JSVal.undefined }).style.lookup "paddingTop" =
          none) := by
  refine ⟨⟨rfl, rfl, by decide⟩, ⟨rfl, rfl⟩, ⟨rfl, rfl⟩⟩

/-- Unfolding of `componentWillReceiveProps` when the pathname changed. -/
lemma componentWillReceiveProps_of_ne {thisProps newProps : Props}
    (h : thisProps.location.pathname ≠ newProps.location.pathname) :
    componentWillReceiveProps thisProps newProps =
      resets newProps ++ [Call.rFetchDatabaseMetadata newProps newProps.databaseId] := by
  simp [componentWillReceiveProps, resets, h]

/-- Unfolding of `componentWillReceiveProps` when the pathname is unchanged. -/
lemma componentWillReceiveProps_of_eq {thisProps newProps : Props}
    (h : thisProps.location.pathname = newProps.location.pathname) :
    componentWillReceiveProps thisProps newProps = [] := by
  simp [componentWillReceiveProps, h]

/-- The calls after the mount are the blocks of the props whose pathname
changed, in order. -/
lemma deliver_eq_blocks (prev : Props) (later : List Props) :
    deliver prev later =
      ((changedProps prev later).map
        (fun p => resets p ++ [Call.rFetchDatabaseMetadata p p.databaseId])).flatten := by
  induction later generalizing prev with
  | nil => rfl
  | cons q later ih =>
    by_cases h : prev.location.pathname = q.location.pathname
    · simp only [deliver, changedProps, componentWillReceiveProps_of_eq h, if_pos h,
        List.nil_append]
      exact ih q
    · simp only [deliver, changedProps, componentWillReceiveProps_of_ne h, if_neg h,
        List.map_cons, List.flatten_cons]
      rw [ih q]

/-- The number of fetches after the mount is the number of pathname changes. -/
lemma countP_isFetch_deliver (prev : Props) (later : List Props) :
    (deliver prev later).countP Call.isFetch = pathnameChanges prev later := by
  induction later generalizing prev with
  | nil => rfl
  | cons q later ih =>
    by_cases h : prev.location.pathname = q.location.pathname
    · simp [deliver, pathnameChanges, componentWillReceiveProps_of_eq h, h, ih q]
    · simp [deliver, pathnameChanges, componentWillReceiveProps_of_ne h, h, ih q, resets,
        Call.isFetch, List.countP_cons, Nat.add_comm]

/-- The number of reset calls after the mount is four times the number of
pathname changes. -/
lemma countP_isInvoke_deliver (prev : Props) (later : List Props) :
    (deliver prev later).countP Call.isInvoke = 4 * pathnameChanges prev later := by
  induction later generalizing prev with
  | nil => rfl
  | cons q later ih =>
    by_cases h : prev.location.pathname = q.location.pathname
    · simp [deliver, pathnameChanges, componentWillReceiveProps_of_eq h, h, ih q]
    · simp [deliver, pathnameChanges, componentWillReceiveProps_of_ne h, h, ih q, resets,
        Call.isInvoke, List.countP_cons]
      omega

/-- In the calls after the mount, every fetch comes right after the four
resets of its own props, and its identifier is the one of those props. -/
lemma deliver_fetch_preceded (prev : Props) (later : List Props) :
    ∀ (pre post : List Call) (p : Props) (d : JSVal),
      deliver prev later = pre ++ Call.rFetchDatabaseMetadata p d :: post →
        d = p.databaseId ∧ ∃ pre0, pre = pre0 ++ resets p := by
  induction later generalizing prev with
  | nil =>
    intro pre post p d h
    simp [deliver] at h
  | cons q later ih =>
    intro pre post p d h
    by_cases hq : prev.location.pathname = q.location.pathname
    · rw [deliver, componentWillReceiveProps_of_eq hq, List.nil_append] at h
      exact ih q pre post p d h
    · rw [deliver, componentWillReceiveProps_of_ne hq] at h
      rcases pre with _ | ⟨a, _ | ⟨b, _ | ⟨c, _ | ⟨e, _ | ⟨f, pre5⟩⟩⟩⟩⟩
      · simp [resets] at h
      · simp [resets] at h
      · simp [resets] at h
      · simp [resets] at h
      · simp only [resets, List.cons_append, List.nil_append, List.cons.injEq,
          Call.rFetchDatabaseMetadata.injEq] at h
        obtain ⟨ha, hb, hc, he, ⟨hp, hd⟩, -⟩ := h
        subst hp
        exact ⟨hd.symm, [], by simp [resets, ha, hb, hc, he]⟩
      · simp only [resets, List.cons_append, List.nil_append, List.cons.injEq] at h
        obtain ⟨-, -, -, -, -, h5⟩ := h
        obtain ⟨hd, pre0, hpre⟩ := ih q pre5 post p d h5
        exact ⟨hd, a :: b :: c :: e :: f :: pre0, by simp [hpre]⟩

/-- C9: for every sequence of props `p0, p1, ..., pn` delivered to one
instance, the whole call trace is the fetch of `p0` followed, for each later
props whose pathname differs from its predecessor and in order, by its four
resets and then its fetch.  So the number of fetches is one plus the number of
adjacent pathname changes, the number of reset calls is four times that
number, and every fetch after the first comes right after the four resets of
its own props. -/
theorem lifecycle_trace (p0 : Props) (later : List Props) :
    lifecycle p0 later = specTrace p0 later ∧
      (lifecycle p0 later).countP Call.isFetch = 1 + pathnameChanges p0 later ∧
      (lifecycle p0 later).countP Call.isInvoke = 4 * pathnameChanges p0 later ∧
      (changedProps p0 later).length = pathnameChanges p0 later ∧
      ∀ (pre post : List Call) (p : Props) (d : JSVal),
        lifecycle p0 later = pre ++ Call.rFetchDatabaseMetadata p d :: post → pre ≠ [] →
          d = p.databaseId ∧ ∃ pre0, pre = pre0 ++ resets p := by
  refine ⟨?_, ?_, ?_, ?_, ?_⟩
  · simp only [lifecycle, specTrace, componentWillMount, deliver_eq_blocks, List.cons_append,
      List.nil_append]
  · simp [lifecycle, componentWillMount, countP_isFetch_deliver, Call.isFetch,
      List.countP_cons, Nat.add_comm]
  · simp [lifecycle, componentWillMount, countP_isInvoke_deliver, Call.isInvoke,
      List.countP_cons]
  · clear * -
    induction later generalizing p0 with
    | nil => rfl
    | cons q later ih =>
      by_cases h : p0.location.pathname = q.location.pathname
      · simp [changedProps, pathnameChanges, h, ih q]
      · simp [changedProps, pathnameChanges, h, ih q, Nat.add_comm]
  · intro pre post p d h hpre
    rcases pre with _ | ⟨a, pre1⟩
    · exact absurd rfl hpre
    · simp only [lifecycle, componentWillMount, List.cons_append, List.nil_append,
        List.cons.injEq] at h
      obtain ⟨hd, pre0, h0⟩ := deliver_fetch_preceded p0 later pre1 post p d h.2
      exact ⟨hd, a :: pre0, by simp [h0]⟩

/-- Witness of C9: mount at "/a", stay at "/a" with another database, move to
"/b", stay at "/b", move back to "/a": three fetches and eight resets, and the
second fetch comes right after the four resets of its props. -/
theorem lifecycle_trace_witness :
    (lifecycle (sampleProps "/a" 1 JSVal.undefined)
        [ sampleProps "/a" 2 JSVal.undefined, sampleProps "/b" 2 JSVal.undefined,
          sampleProps "/b" 3 JSVal.undefined, sampleProps "/a" 3 JSVal.undefined ]).countP
        Call.isFetch = 3 ∧
      (lifecycle (sampleProps "/a" 1 JSVal.undefined)
        [ sampleProps "/a" 2 JSVal.undefined, sampleProps "/b" 2 JSVal.undefined,
          sampleProps "/b" 3 JSVal.undefined, sampleProps "/a" 3 JSVal.undefined ]).countP
        Call.isInvoke = 8 ∧
      (JSVal.num 2 = (sampleProps "/b" 2 JSVal.undefined).databaseId ∧
        ∃ pre0,
          Call.rFetchDatabaseMetadata (sampleProps "/a" 1 JSVal.undefined) (JSVal.num 1) ::
              resets (sampleProps "/b" 2 JSVal.undefined) =
            pre0 ++ resets (sampleProps "/b" 2 JSVal.undefined)) :=
  have h := lifecycle_trace (sampleProps "/a" 1 JSVal.undefined)
    [ sampleProps "/a" 2 JSVal.undefined, sampleProps "/b" 2 JSVal.undefined,
      sampleProps "/b" 3 JSVal.undefined, sampleProps "/a" 3 JSVal.undefined ]
  ⟨h.2.1.trans (by decide), h.2.2.1.trans (by decide),
    h.2.2.2.2
      (Call.rFetchDatabaseMetadata (sampleProps "/a" 1 JSVal.undefined) (JSVal.num 1) ::
        resets (sampleProps "/b" 2 JSVal.undefined))
      (resets (sampleProps "/a" 3 JSVal.undefined) ++
        [Call.rFetchDatabaseMetadata (sampleProps "/a" 3 JSVal.undefined) (JSVal.num 3)])
      (sampleProps "/b" 2 JSVal.undefined) (JSVal.num 2) (by decide) (by simp)⟩

end FieldDetailContainer

/-! ## Theorems: `SettingInput` -/

/-- `ToBoolean` of a boolean is the boolean. -/
lemma JSVal.truthy_bool (b : Bool) : (JSVal.bool b).truthy = b := rfl

namespace SettingInput

/-- C4: for every setting whose value is an optional string, the `value`
attribute passed to the input is `setting.value` when it is a string and the
empty string when it is `undefined` or `null`; it is a string in every case,
never `undefined` or `null`. -/
theorem value_attribute (cx : List CxArg → String) (props : Props) (s : String) :
    attr "value"
        (SettingInput cx { props with setting := { props.setting with value := JSVal.str s } }) =
        some (Attr.val (JSVal.str s)) ∧
      attr "value"
        (SettingInput cx
          { props with setting := { props.setting with value := JSVal.undefined } }) =
        some (Attr.val (JSVal.str "")) ∧
      attr "value"
        (SettingInput cx { props with setting := { props.setting with value := JSVal.null } }) =
        some (Attr.val (JSVal.str "")) := by
  refine ⟨?_, rfl, rfl⟩
  by_cases hs : s = ""
  · subst hs; rfl
  · simp [attr, SettingInput, List.lookup, JSVal.or, JSVal.truthy, hs]

/-- C5: for every props with `fireOnChange = true`, the `onChange` attribute is
a handler that, invoked with an event whose `target.value` is the string `s`,
calls the change callback exactly once, with `s`; the `onBlurChange` attribute
is `null`. -/
theorem fireOnChange_true (cx : List CxArg → String) (props : Props) :
    (∃ h : Event → List Call,
        attr "onChange" (SettingInput cx { props with fireOnChange := JSVal.bool true }) =
          some (Attr.handler h) ∧
        ∀ s : String, h { target := { value := JSVal.str s } } =
          [Call.invoke props.onChange (JSVal.str s)]) ∧
      attr "onBlurChange" (SettingInput cx { props with fireOnChange := JSVal.bool true }) =
        some (Attr.val JSVal.null) :=
  ⟨⟨fun e => [Call.invoke props.onChange e.target.value], rfl, fun _ => rfl⟩, rfl⟩

/-- C6: for every props with `fireOnChange` false or omitted, the `onChange`
attribute is `null`, and the `onBlurChange` attribute is a handler that,
invoked with an event whose `target.value` is the string `s`, calls the change
callback exactly once, with `s`. -/
theorem fireOnChange_false_or_omitted (cx : List CxArg → String) (props : Props) :
    (attr "onChange" (SettingInput cx { props with fireOnChange := JSVal.bool false }) =
          some (Attr.val JSVal.null) ∧
        ∃ h : Event → List Call,
          attr "onBlurChange" (SettingInput cx { props with fireOnChange := JSVal.bool false }) =
            some (Attr.handler h) ∧
          ∀ s : String, h { target := { value := JSVal.str s } } =
            [Call.invoke props.onChange (JSVal.str s)]) ∧
      (attr "onChange" (SettingInput cx { props with fireOnChange := JSVal.undefined }) =
          some (Attr.val JSVal.null) ∧
        ∃ h : Event → List Call,
          attr "onBlurChange" (SettingInput cx { props with fireOnChange := JSVal.undefined }) =
            some (Attr.handler h) ∧
          ∀ s : String, h { target := { value := JSVal.str s } } =
            [Call.invoke props.onChange (JSVal.str s)]) :=
  ⟨⟨rfl, fun e => [Call.invoke props.onChange e.target.value], rfl, fun _ => rfl⟩,
    ⟨rfl, fun e => [Call.invoke props.onChange e.target.value], rfl, fun _ => rfl⟩⟩

/-- C7: for every props, with `cx` the `classnames` function: when `type` is
"password" the `className` attribute contains the class `SettingsPassword` and
not `SettingsInput`; when `type` is "text", or omitted, it contains
`SettingsInput` and not `SettingsPassword`. -/
theorem className_by_type (props : Props) :
    (∃ c : JSVal,
        attr "className" (SettingInput classNames { props with type := JSVal.str "password" }) =
          some (Attr.val c) ∧
        hasClass c "SettingsPassword" = true ∧ hasClass c "SettingsInput" = false) ∧
      (∃ c : JSVal,
        attr "className" (SettingInput classNames { props with type := JSVal.str "text" }) =
          some (Attr.val c) ∧
        hasClass c "SettingsInput" = true ∧ hasClass c "SettingsPassword" = false) ∧
      (∃ c : JSVal,
        attr "className" (SettingInput classNames { props with type := JSVal.undefined }) =
          some (Attr.val c) ∧
        hasClass c "SettingsInput" = true ∧ hasClass c "SettingsPassword" = false) := by
  refine ⟨⟨_, rfl, ?_⟩, ⟨_, rfl, ?_⟩, ⟨_, rfl, ?_⟩⟩ <;>
    cases h : props.errorMessage.truthy <;>
    simp [classNames, JSVal.strictEq, JSVal.truthy_bool, List.filter, h] <;>
    decide

/-- C10: the `disabled` prop has no effect on the element: for every props and
every value `d`, replacing `disabled` by `d` gives the same attributes (the
same `className`, `type`, `value`, `placeholder`, `onChange`, `onBlurChange` and
`autoFocus`), and no `disabled` attribute is passed. -/
theorem disabled_not_used (cx : List CxArg → String) (props : Props) (d : JSVal) :
    SettingInput cx { props with disabled := d } = SettingInput cx props ∧
      (SettingInput cx props).map Prod.fst =
        ["className", "type", "value", "placeholder", "onChange", "onBlurChange",
          "autoFocus"] ∧
      attr "disabled" (SettingInput cx props) = none :=
  ⟨rfl, rfl, rfl⟩

end SettingInput
